import Mathlib

/-!
Verification of the webpptx repository's animation compositing engine
(`gif_compositor.py`) and its asynchronous job pipeline (the poll routes of
`index.py`), as a shallow embedding in Lean 4.

Conventions of the embedding:
* A decoded raster frame is modelled as a pixel function `Int → Int → Nat`
  (coordinates to colour value); the externally-decoded GIF buffer of a
  `GIFContainer` is modelled by the list of its decoded frames, each already
  carrying the pixel content that `PIL.Image.resize((width, height))` would
  paste (the resize itself is an external library call; order, placement, and
  frame selection are what the code controls and what is modelled).
* Python integers are `Nat`/`Int`; Python `//` on non-negative values is `Nat`
  division; Python `int(x)` truncation on non-negative values is floor.
* Filesystem paths are `String`; the set of paths existing on disk is a
  `List String`; `os.remove`/`shutil.rmtree` are `List.erase`.
-/

/-- Embedding of `gif_compositor.GIFContainer`.  `frames` models the decoded
content of `buf` (one pixel function per source frame, already at the pasted
resolution), `framedelay` is `img.info` duration, and
`framerate_normalization_factor` is initialized to 1 by the constructor. -/
structure GIFContainer where
  frames : List (Int → Int → Nat)
  x : Int
  y : Int
  width : Int
  height : Int
  framedelay : Nat
  framerate_normalization_factor : Nat

instance : Inhabited GIFContainer := ⟨⟨[], 0, 0, 0, 0, 0, 1⟩⟩

/-- The `max_index` attribute: `img.n_frames`, the length of the GIF in frames. -/
def GIFContainer.max_index (j : GIFContainer) : Nat := j.frames.length

/-- The decoded frame reached by `gif.seek(k)`. -/
def GIFContainer.framePixel (j : GIFContainer) (k : Nat) : Int → Int → Nat :=
  j.frames.getD k (fun _ _ => 0)

/-- Source frame selection of `compose_gifs` (gif_compositor.py lines 51-54):
`if i < j.max_index * j.framerate_normalization_factor: gif.seek(i //
j.framerate_normalization_factor) else: gif.seek(j.max_index - 1)`. -/
def sampleIndex (j : GIFContainer) (i : Nat) : Nat :=
  if i < j.max_index * j.framerate_normalization_factor then
    i / j.framerate_normalization_factor
  else
    j.max_index - 1

/-- `gif_data[0].framedelay`, the delay of the first (fastest, after sorting)
GIF; only ever read when the list is non-empty. -/
def referenceDelay (gif_data : List GIFContainer) : Nat :=
  match gif_data with
  | [] => 0
  | g :: _ => g.framedelay

/-- One iteration of the normalization loop body on a single container:
`i.framerate_normalization_factor = i.framedelay // gif_data[0].framedelay`. -/
def normalizeOne (ref : Nat) (i : GIFContainer) : GIFContainer :=
  { i with framerate_normalization_factor := i.framedelay / ref }

/-- The fully-stretched length `i.max_index * i.framerate_normalization_factor`. -/
def stretched (i : GIFContainer) : Nat :=
  i.max_index * i.framerate_normalization_factor

/-- The normalization loop of `compose_gifs` (lines 37-40), which both sets
every container's `framerate_normalization_factor` and raises `frame_count`
whenever a stretched animation would exceed it. -/
def normalizeAndBudgetAux (ref : Nat) : List GIFContainer → Nat → List GIFContainer × Nat
  | [], frame_count => ([], frame_count)
  | i :: rest, frame_count =>
    let i' := normalizeOne ref i
    let fc' := if i'.max_index * i'.framerate_normalization_factor > frame_count then
        i'.framerate_normalization_factor * i'.max_index
      else frame_count
    let r := normalizeAndBudgetAux ref rest fc'
    (i' :: r.1, r.2)

/-- The normalization pass of `compose_gifs` over the whole (sorted) list,
with the reference delay read from the first element.  Returns the updated
containers and the final `frame_count`. -/
def normalizeAndBudget (gif_data : List GIFContainer) (frame_count : Nat) :
    List GIFContainer × Nat :=
  normalizeAndBudgetAux (referenceDelay gif_data) gif_data frame_count

/-- One paste of the inner loop (lines 49-60): the selected source frame of
`j`, resized to `(j.width, j.height)`, is pasted opaquely at the rectangle
`(j.x, j.y, j.x + w, j.y + h)` of the working frame. -/
def pasteOne (t : Nat) (im : Int → Int → Nat) (j : GIFContainer) : Int → Int → Nat :=
  fun px py =>
    if j.x ≤ px ∧ px < j.x + j.width ∧ j.y ≤ py ∧ py < j.y + j.height then
      j.framePixel (sampleIndex j t) (px - j.x) (py - j.y)
    else
      im px py

/-- Composite frame `t`: a fresh RGB copy of the background with every GIF of
`gif_data` pasted in list order. -/
def compositeFrame (image_file : Int → Int → Nat) (gif_data : List GIFContainer)
    (t : Nat) : Int → Int → Nat :=
  gif_data.foldl (pasteOne t) image_file

/-- The data `compose_gifs` hands to `frames[0].save(...)` on line 70: the
composite frame sequence, the `loop` argument, and the `duration` argument. -/
structure ComposeResult where
  frames : List (Int → Int → Nat)
  loop : Nat
  duration : Nat

/-- Embedding of `gif_compositor.compose_gifs`: normalize and adjust the
frame budget, render one composite frame per output index, and save with
`loop=32767` and `duration=gif_data[0].framedelay`. -/
def compose_gifs (image_file : Int → Int → Nat) (gif_data : List GIFContainer)
    (frame_count : Nat) : ComposeResult :=
  let nb := normalizeAndBudget gif_data frame_count
  { frames := (List.range nb.2).map (fun t => compositeFrame image_file nb.1 t)
    loop := 32767
    duration := referenceDelay gif_data }

/-- Comparison key of `sorted(gifs, key=lambda g: g.framedelay)`. -/
def delayLE (a b : GIFContainer) : Prop := a.framedelay ≤ b.framedelay

instance : DecidableRel delayLE := fun a b => Nat.decLe a.framedelay b.framedelay

instance : IsTotal GIFContainer delayLE := ⟨fun a b => Nat.le_total a.framedelay b.framedelay⟩

instance : IsTrans GIFContainer delayLE := ⟨fun _ _ _ h1 h2 => Nat.le_trans h1 h2⟩

/-- Strict version of `delayLE`, used to compare sorted lists. -/
def delayLT (a b : GIFContainer) : Prop := a.framedelay < b.framedelay

instance : IsAntisymm GIFContainer delayLT := ⟨fun _ _ h1 h2 => (Nat.lt_asymm h1 h2).elim⟩

/-- `sorted(gifs, key=lambda g: g.framedelay)` — Python's `sorted` is stable,
as is insertion sort on a total preorder. -/
def sortGifs (gifs : List GIFContainer) : List GIFContainer :=
  List.insertionSort delayLE gifs

/-- The animation path of `execute_animation_job` (index.py lines 324-326):
the detected GIFs are sorted by frame delay and then handed to
`compose_gifs` together with the slide image and the frame counter. -/
def composeSortedGifs (image_file : Int → Int → Nat) (gifs : List GIFContainer)
    (frame_count : Nat) : ComposeResult :=
  compose_gifs image_file (sortGifs gifs) frame_count

/-- The `frame_counter` accumulation of `execute_animation_job` (index.py
lines 298, 317-318): initialized to `-1` and raised to `gif.img.n_frames`
whenever a detected GIF has more frames. -/
def frame_counter (gifs : List GIFContainer) : Int :=
  gifs.foldl
    (fun fc g => if (g.max_index : Int) > fc then (g.max_index : Int) else fc) (-1)

/-- The branch condition of index.py line 325:
`len(gifs) > 0 and frame_counter > 1`.  When it is false the original slide
image is copied into the response instead of invoking `compose_gifs`. -/
def usesCompose (gifs : List GIFContainer) : Bool :=
  decide (0 < gifs.length) && decide ((1 : Int) < frame_counter gifs)

/-- `GIFContainer.scaleWidth`: `self.width = int(self.width * factor)` where
`factor` is the non-negative ratio `num / den` (background pixel dimension
over document page dimension); on non-negative exact values Python `int()`
truncation is floor, so the result is `w * num / den` in natural division. -/
def scaleWidth (w num den : Nat) : Nat := w * num / den

/-- `GIFContainer.scaleHeight`, identically to `scaleWidth`. -/
def scaleHeight (h num den : Nat) : Nat := h * num / den

/-- An entry of the `available_results_animation` / `available_results_form`
queues: a job id together with the artifact directory it produced. -/
structure JobResult where
  job_id : String
  content_path : String
deriving DecidableEq

/-- The server state touched by one poll route: the set of paths existing on
disk, that kind's deletion list (`to_delete_animate` / `to_delete_form`), and
that kind's result queue. -/
structure PollState where
  fs : List String
  retain : List String
  results : List JobResult
deriving DecidableEq

/-- One iteration of the deletion loop body at index `i` (index.py lines
508-520 and 461-475): if `i` is past the end of the shrunken list the
`IndexError` is caught and nothing happens; if the path at `i` exists it is
removed from disk and `del`-eted from the list; otherwise nothing happens. -/
def sweepStep (fs lst : List String) (i : Nat) : List String × List String :=
  if h : i < lst.length then
    let p := lst.get ⟨i, h⟩
    if p ∈ fs then (fs.erase p, lst.eraseIdx i)
    else (fs, lst)
  else (fs, lst)

/-- The deletion loop `for i in range(len(lst))` with `lst` mutated inside:
`k` counts the remaining iterations of the range computed once up front. -/
def sweepFrom : List String → List String → Nat → Nat → List String × List String
  | fs, lst, _, 0 => (fs, lst)
  | fs, lst, i, k + 1 =>
    let s := sweepStep fs lst i
    sweepFrom s.1 s.2 (i + 1) k

/-- The retention sweep a poll route runs before anything else: iterate the
indices `0 .. len(lst) - 1` fixed at entry, deleting existing scheduled
paths from disk and from the list as it goes. -/
def sweep (fs lst : List String) : List String × List String :=
  sweepFrom fs lst 0 lst.length

/-- Outcome of a poll route: crawler 404, auth 403, the empty
nothing-ready response, or a packaged archive sent back. -/
inductive PollResponse where
  | notFound : PollResponse
  | forbidden : PollResponse
  | nothingReady : PollResponse
  | archive : String → PollResponse
deriving DecidableEq

/-- Embedding of the `/animation-results` route `return_animation_results`
(index.py lines 501-544): crawler check, retention sweep, authentication,
then either the empty response or draining the result queue into an archive
written at `responsePath`, scheduling every drained `content_path` and
finally the archive itself for deletion on a later poll. -/
def return_animation_results (isCrawler keyValid : Bool) (responsePath : String)
    (s : PollState) : PollState × PollResponse :=
  if isCrawler then (s, PollResponse.notFound)
  else
    let swept := sweep s.fs s.retain
    if keyValid then
      if s.results.isEmpty then
        ({ fs := swept.1, retain := swept.2, results := s.results },
          PollResponse.nothingReady)
      else
        ({ fs := responsePath :: swept.1
           retain := (swept.2 ++ s.results.map JobResult.content_path) ++ [responsePath]
           results := [] },
          PollResponse.archive responsePath)
    else
      ({ fs := swept.1, retain := swept.2, results := s.results },
        PollResponse.forbidden)

/-- Embedding of the `/form-results` route `return_form_results` (index.py
lines 449-498).  It differs from the animation route only in its drain loop:
`to_delete_form.append(item.content_path)` sits inside the per-file loop, so
a content path is scheduled once per file `os.listdir` reports in it
(`listdir` models the external directory listing). -/
def return_form_results (isCrawler keyValid : Bool) (listdir : String → List String)
    (responsePath : String) (s : PollState) : PollState × PollResponse :=
  if isCrawler then (s, PollResponse.notFound)
  else
    let swept := sweep s.fs s.retain
    if keyValid then
      if s.results.isEmpty then
        ({ fs := swept.1, retain := swept.2, results := s.results },
          PollResponse.nothingReady)
      else
        ({ fs := responsePath :: swept.1
           retain := (swept.2 ++
             s.results.flatMap (fun it => (listdir it.content_path).map
               (fun _ => it.content_path))) ++ [responsePath]
           results := [] },
          PollResponse.archive responsePath)
    else
      ({ fs := swept.1, retain := swept.2, results := s.results },
        PollResponse.forbidden)

/-- Modelled from the spec: the output animation format's loop-count field
(the GIF Netscape application extension's loop count, the "format's largest
expressible finite loop count" of the encoding step) is an unsigned 16-bit
integer, so the largest finite loop count the format can express is
2 ^ 16 - 1 = 65535.  The format itself is external to the repository. -/
def largestExpressibleFiniteLoopCount : Nat := 2 ^ 16 - 1

/-- Constant-colour stub frame used by the concrete scenarios. -/
def frameStub (c : Nat) : Int → Int → Nat := fun _ _ => c

/-- Scenario A's animation A: native delay 100, 5 frames. -/
def gifA : GIFContainer :=
  ⟨[frameStub 0, frameStub 1, frameStub 2, frameStub 3, frameStub 4], 0, 0, 4, 4, 100, 1⟩

/-- Scenario A's animation B: native delay 300, 3 frames. -/
def gifB : GIFContainer :=
  ⟨[frameStub 10, frameStub 11, frameStub 12], 0, 0, 4, 4, 300, 1⟩

theorem normalizeAndBudgetAux_fst (ref : Nat) (l : List GIFContainer) :
    ∀ fc, (normalizeAndBudgetAux ref l fc).1 = l.map (normalizeOne ref) := by
  induction l with
  | nil => intro fc; rfl
  | cons i rest ih =>
    intro fc
    simp only [normalizeAndBudgetAux, List.map_cons]
    rw [ih]

theorem budget_step (fc : Nat) (i' : GIFContainer) :
    (if i'.max_index * i'.framerate_normalization_factor > fc then
        i'.framerate_normalization_factor * i'.max_index
      else fc) = max fc (stretched i') := by
  unfold stretched
  rw [Nat.mul_comm i'.framerate_normalization_factor i'.max_index]
  rcases Nat.lt_or_ge fc (i'.max_index * i'.framerate_normalization_factor) with h | h
  · rw [if_pos h, Nat.max_eq_right (Nat.le_of_lt h)]
  · rw [if_neg (Nat.not_lt.mpr h), Nat.max_eq_left h]

theorem normalizeAndBudgetAux_snd (ref : Nat) (l : List GIFContainer) :
    ∀ fc, (normalizeAndBudgetAux ref l fc).2
      = l.foldl (fun acc i => max acc (stretched (normalizeOne ref i))) fc := by
  induction l with
  | nil => intro fc; rfl
  | cons i rest ih =>
    intro fc
    simp only [normalizeAndBudgetAux, List.foldl_cons]
    rw [ih, budget_step]

theorem foldl_max_shift (f : GIFContainer → Nat) (l : List GIFContainer) :
    ∀ a b : Nat, l.foldl (fun acc i => max acc (f i)) (max a b)
      = max a (l.foldl (fun acc i => max acc (f i)) b) := by
  induction l with
  | nil => intro a b; rfl
  | cons i rest ih =>
    intro a b
    simp only [List.foldl_cons]
    rw [Nat.max_assoc, ih]

theorem le_foldl_max (f : GIFContainer → Nat) (l : List GIFContainer) :
    ∀ a : Nat, a ≤ l.foldl (fun acc i => max acc (f i)) a := by
  induction l with
  | nil => intro a; exact Nat.le_refl a
  | cons i rest ih =>
    intro a
    simp only [List.foldl_cons]
    exact Nat.le_trans (Nat.le_max_left a (f i)) (ih _)

theorem mem_le_foldl_max (f : GIFContainer → Nat) (l : List GIFContainer) :
    ∀ (a : Nat) (g : GIFContainer), g ∈ l →
      f g ≤ l.foldl (fun acc i => max acc (f i)) a := by
  induction l with
  | nil => intro a g hg; cases hg
  | cons i rest ih =>
    intro a g hg
    simp only [List.foldl_cons]
    rcases List.mem_cons.mp hg with h | h
    · subst h; exact Nat.le_trans (Nat.le_max_right a (f g)) (le_foldl_max f rest _)
    · exact ih _ g h

theorem nf_ge_one (g0 : GIFContainer) (rest : List GIFContainer) (fc : Nat)
    (hs : List.Sorted delayLE (g0 :: rest)) (h0 : 0 < g0.framedelay) :
    ∀ g ∈ (normalizeAndBudget (g0 :: rest) fc).1, 1 ≤ g.framerate_normalization_factor := by
  intro g hg
  rw [normalizeAndBudget, normalizeAndBudgetAux_fst] at hg
  rcases List.mem_map.mp hg with ⟨g', hg', rfl⟩
  show 1 ≤ g'.framedelay / referenceDelay (g0 :: rest)
  have href : referenceDelay (g0 :: rest) = g0.framedelay := rfl
  rw [href, Nat.one_le_div_iff h0]
  rcases List.mem_cons.mp hg' with h | h
  · rw [h]
  · exact (List.sorted_cons.mp hs).1 g' h

/-- C1: for an animation descriptor `a` in a composite with frame budget `B`
and output frame index `t < B`, with `L = a.frameCount *
a.normalizationFactor`: if `t < L` the sampled source frame index is
`t // a.normalizationFactor`, otherwise it is `a.frameCount - 1`, and in
either case it never exceeds `a.frameCount - 1` (so it never wraps to 0). -/
theorem sampleIndex_spec (a : GIFContainer) (B t : Nat) (htB : t < B)
    (hnf : 1 ≤ a.framerate_normalization_factor) (hfc : 1 ≤ a.max_index) :
    (t < stretched a → sampleIndex a t = t / a.framerate_normalization_factor) ∧
    (stretched a ≤ t → sampleIndex a t = a.max_index - 1) ∧
    sampleIndex a t ≤ a.max_index - 1 := by
  refine ⟨fun h => ?_, fun h => ?_, ?_⟩
  · simp only [sampleIndex, stretched] at *
    rw [if_pos h]
  · simp only [sampleIndex, stretched] at *
    rw [if_neg (Nat.not_lt.mpr h)]
  · by_cases hc : t < a.max_index * a.framerate_normalization_factor
    · simp only [sampleIndex, if_pos hc]
      have hlt : t / a.framerate_normalization_factor < a.max_index :=
        (Nat.div_lt_iff_lt_mul (Nat.lt_of_lt_of_le Nat.zero_lt_one hnf)).mpr hc
      omega
    · simp only [sampleIndex, if_neg hc]
      exact Nat.le_refl _

theorem sampleIndex_spec_witness :
    (7 < stretched gifA → sampleIndex gifA 7 = 7 / gifA.framerate_normalization_factor) ∧
    (stretched gifA ≤ 7 → sampleIndex gifA 7 = gifA.max_index - 1) ∧
    sampleIndex gifA 7 ≤ gifA.max_index - 1 :=
  sampleIndex_spec gifA 9 7 (by decide) (by decide) (by decide)

/-- C4: for native delays [100, 300], frame counts [5, 3] and initial frame
budget estimate 5 the normalization factors are [1, 3], the stretched lengths
are [5, 9], the frame budget is 9; animation A samples frames 0..4 and then
holds frame 4, animation B samples frame t // 3, for t = 0..8. -/
theorem scenarioA_spec :
    (normalizeAndBudget [gifA, gifB] 5).2 = 9 ∧
    ((normalizeAndBudget [gifA, gifB] 5).1.map
        GIFContainer.framerate_normalization_factor) = [1, 3] ∧
    ((normalizeAndBudget [gifA, gifB] 5).1.map stretched) = [5, 9] ∧
    ((List.range 9).map (fun t =>
        sampleIndex ((normalizeAndBudget [gifA, gifB] 5).1.getD 0 default) t))
      = [0, 1, 2, 3, 4, 4, 4, 4, 4] ∧
    ((List.range 9).map (fun t =>
        sampleIndex ((normalizeAndBudget [gifA, gifB] 5).1.getD 1 default) t))
      = [0, 0, 0, 1, 1, 1, 2, 2, 2] := by
  decide

/-- C2: for a non-empty list sorted ascending by native frame delay with all
delays positive, the normalization loop assigns every descriptor the factor
`floor(delay_i / delay_reference)` with the first (minimum-delay) descriptor
as reference; the reference's own factor is exactly 1 and every factor is at
least 1. -/
theorem normalizationFactor_spec (g0 : GIFContainer) (rest : List GIFContainer)
    (fc : Nat) (hs : List.Sorted delayLE (g0 :: rest))
    (hpos : ∀ g ∈ g0 :: rest, 0 < g.framedelay) :
    ((normalizeAndBudget (g0 :: rest) fc).1.map
        GIFContainer.framerate_normalization_factor)
      = (g0 :: rest).map (fun g => g.framedelay / g0.framedelay) ∧
    ((normalizeAndBudget (g0 :: rest) fc).1.map
        GIFContainer.framerate_normalization_factor).head? = some 1 ∧
    ∀ g ∈ (normalizeAndBudget (g0 :: rest) fc).1,
      1 ≤ g.framerate_normalization_factor := by
  have hmap : ((normalizeAndBudget (g0 :: rest) fc).1.map
      GIFContainer.framerate_normalization_factor)
        = (g0 :: rest).map (fun g => g.framedelay / g0.framedelay) := by
    rw [normalizeAndBudget, normalizeAndBudgetAux_fst, List.map_map]
    rfl
  refine ⟨hmap, ?_, nf_ge_one g0 rest fc hs (hpos g0 (List.mem_cons_self g0 rest))⟩
  rw [hmap]
  simp only [List.map_cons, List.head?_cons]
  rw [Nat.div_self (hpos g0 (List.mem_cons_self g0 rest))]

theorem normalizationFactor_spec_witness :
    (((normalizeAndBudget [gifA, gifB] 5).1.map
        GIFContainer.framerate_normalization_factor)
      = [gifA, gifB].map (fun g => g.framedelay / gifA.framedelay)) ∧
    ((normalizeAndBudget [gifA, gifB] 5).1.map
        GIFContainer.framerate_normalization_factor).head? = some 1 ∧
    ∀ g ∈ (normalizeAndBudget [gifA, gifB] 5).1,
      1 ≤ g.framerate_normalization_factor :=
  normalizationFactor_spec gifA [gifB] 5 (by decide) (by decide)

/-- Running maximum of the stretched lengths, starting from 0. -/
def maxStretched (l : List GIFContainer) : Nat :=
  l.foldl (fun acc g => max acc (stretched g)) 0

/-- C3: for a non-empty sorted descriptor list and any initial frame budget
estimate `E`, the final frame budget of the normalization loop equals
`max E (max over i of frameCount_i * normalizationFactor_i)`; hence it is at
least `E` and at least every descriptor's stretched length, so no animation
is truncated before one full native cycle. -/
theorem frameBudget_spec (g0 : GIFContainer) (rest : List GIFContainer) (E : Nat)
    (hs : List.Sorted delayLE (g0 :: rest)) :
    (normalizeAndBudget (g0 :: rest) E).2
      = max E (maxStretched (normalizeAndBudget (g0 :: rest) E).1) ∧
    E ≤ (normalizeAndBudget (g0 :: rest) E).2 ∧
    ∀ g ∈ (normalizeAndBudget (g0 :: rest) E).1,
      stretched g ≤ (normalizeAndBudget (g0 :: rest) E).2 := by
  have hfst := normalizeAndBudgetAux_fst (referenceDelay (g0 :: rest)) (g0 :: rest)
  have hsnd := normalizeAndBudgetAux_snd (referenceDelay (g0 :: rest)) (g0 :: rest)
  refine ⟨?_, ?_, ?_⟩
  · show (normalizeAndBudgetAux (referenceDelay (g0 :: rest)) (g0 :: rest) E).2
      = max E (maxStretched (normalizeAndBudgetAux (referenceDelay (g0 :: rest)) (g0 :: rest) E).1)
    rw [hsnd, hfst E, maxStretched, List.foldl_map]
    have hshift := foldl_max_shift
      (fun i => stretched (normalizeOne (referenceDelay (g0 :: rest)) i)) (g0 :: rest) E 0
    rw [Nat.max_zero] at hshift
    exact hshift
  · show E ≤ (normalizeAndBudgetAux (referenceDelay (g0 :: rest)) (g0 :: rest) E).2
    rw [hsnd]
    exact le_foldl_max _ (g0 :: rest) E
  · intro g hg
    show stretched g ≤ (normalizeAndBudgetAux (referenceDelay (g0 :: rest)) (g0 :: rest) E).2
    rw [normalizeAndBudget, hfst E] at hg
    rcases List.mem_map.mp hg with ⟨g', hg', rfl⟩
    rw [hsnd]
    exact mem_le_foldl_max
      (fun i => stretched (normalizeOne (referenceDelay (g0 :: rest)) i)) (g0 :: rest) E g' hg'

theorem frameBudget_spec_witness :
    ((normalizeAndBudget [gifA, gifB] 5).2
      = max 5 (maxStretched (normalizeAndBudget [gifA, gifB] 5).1)) ∧
    5 ≤ (normalizeAndBudget [gifA, gifB] 5).2 ∧
    ∀ g ∈ (normalizeAndBudget [gifA, gifB] 5).1,
      stretched g ≤ (normalizeAndBudget [gifA, gifB] 5).2 :=
  frameBudget_spec gifA [gifB] 5 (by decide)

theorem frame_counter_gt_one_iff (l : List GIFContainer) :
    ∀ a : Int,
      (1 < l.foldl
        (fun fc g => if (g.max_index : Int) > fc then (g.max_index : Int) else fc) a)
        ↔ (1 < a ∨ ∃ g ∈ l, 1 < g.max_index) := by
  induction l with
  | nil =>
    intro a
    simp
  | cons g rest ih =>
    intro a
    simp only [List.foldl_cons]
    rw [ih]
    have hcast : (1 : Int) < (g.max_index : Int) ↔ 1 < g.max_index := by
      exact_mod_cast Iff.rfl
    constructor
    · rintro (h1 | h2)
      · by_cases h : (g.max_index : Int) > a
        · rw [if_pos h] at h1
          exact Or.inr ⟨g, List.mem_cons_self g rest, hcast.mp h1⟩
        · rw [if_neg h] at h1
          exact Or.inl h1
      · rcases h2 with ⟨x, hx, hx1⟩
        exact Or.inr ⟨x, List.mem_cons_of_mem g hx, hx1⟩
    · rintro (h1 | ⟨x, hx, hx1⟩)
      · left
        by_cases h : (g.max_index : Int) > a
        · rw [if_pos h]
          exact lt_trans h1 h
        · rw [if_neg h]
          exact h1
      · rcases List.mem_cons.mp hx with rfl | hmem
        · left
          by_cases h : (x.max_index : Int) > a
          · rw [if_pos h]
            exact hcast.mpr hx1
          · rw [if_neg h]
            exact lt_of_lt_of_le (hcast.mpr hx1) (not_lt.mp h)
        · exact Or.inr ⟨x, hmem, hx1⟩

/-- C6: if the detected animation set is empty or every detected animation has
frame count 1, the slide branch emits the unmodified static background (the
compose path is not taken); and the compose path is taken exactly when at
least one animation exists and some animation has more than one frame. -/
theorem staticFallback_spec (gifs : List GIFContainer) :
    ((gifs = [] ∨ ∀ g ∈ gifs, g.max_index = 1) → usesCompose gifs = false) ∧
    (usesCompose gifs = true ↔ gifs ≠ [] ∧ ∃ g ∈ gifs, 1 < g.max_index) := by
  have hiff : usesCompose gifs = true ↔ gifs ≠ [] ∧ ∃ g ∈ gifs, 1 < g.max_index := by
    unfold usesCompose frame_counter
    rw [Bool.and_eq_true, decide_eq_true_iff, decide_eq_true_iff,
      frame_counter_gt_one_iff gifs (-1)]
    constructor
    · rintro ⟨hl, hor⟩
      refine ⟨?_, ?_⟩
      · intro he
        rw [he] at hl
        exact absurd hl (by simp)
      · rcases hor with h1 | h2
        · exact absurd h1 (by norm_num)
        · exact h2
    · rintro ⟨hne, hex⟩
      refine ⟨?_, Or.inr hex⟩
      cases gifs with
      | nil => exact absurd rfl hne
      | cons a l => simp
  refine ⟨?_, hiff⟩
  intro h
  by_contra hc
  rw [Bool.not_eq_false] at hc
  rcases hiff.mp hc with ⟨hne, g, hg, hg1⟩
  rcases h with he | hall
  · exact hne he
  · have := hall g hg
    omega

theorem staticFallback_spec_witness : usesCompose [] = false :=
  (staticFallback_spec []).1 (Or.inl rfl)

/-- C8 counterexample: a descriptor whose document-unit width is half the
document units per background pixel scales to width 0, refuting the claimed
invariant that width is always at least 1 after scaling: with width 1 and
pixels-to-page ratio 1/2, `int(1 * 0.5) = 0`. -/
theorem scaleWidth_counterexample :
    scaleWidth 1 1 2 = 0 ∧ ¬ 1 ≤ scaleWidth 1 1 2 := by
  decide

/-- C8 as amended: after the conversion the width and height are integers that
are at least 1 exactly when the document dimension times the pixel ratio is at
least one pixel (`den ≤ w * num`), and can be 0 below that; the normalization
factor is always a positive integer for a sorted set with positive delays. -/
theorem scale_and_normalization_invariant (w h num den : Nat) (hden : 0 < den)
    (g0 : GIFContainer) (rest : List GIFContainer) (fc : Nat)
    (hs : List.Sorted delayLE (g0 :: rest)) (h0 : 0 < g0.framedelay) :
    (1 ≤ scaleWidth w num den ↔ den ≤ w * num) ∧
    (1 ≤ scaleHeight h num den ↔ den ≤ h * num) ∧
    ∀ g ∈ (normalizeAndBudget (g0 :: rest) fc).1,
      1 ≤ g.framerate_normalization_factor :=
  ⟨Nat.one_le_div_iff hden, Nat.one_le_div_iff hden, nf_ge_one g0 rest fc hs h0⟩

theorem scale_and_normalization_invariant_witness :
    (1 ≤ scaleWidth 914400 540 9144000 ↔ 9144000 ≤ 914400 * 540) ∧
    (1 ≤ scaleHeight 914400 540 9144000 ↔ 9144000 ≤ 914400 * 540) ∧
    ∀ g ∈ (normalizeAndBudget [gifA, gifB] 5).1,
      1 ≤ g.framerate_normalization_factor :=
  scale_and_normalization_invariant 914400 914400 540 9144000 (by decide)
    gifA [gifB] 5 (by decide) (by decide)

/-- C9 counterexample: the loop count written by `compose_gifs` is the
constant 32767, not the largest finite loop count expressible in the
format's 16-bit loop field (65535), so the claim fails at this input. -/
theorem loopCount_counterexample :
    (compose_gifs (frameStub 0) [gifA] 5).loop = 32767 ∧
    (compose_gifs (frameStub 0) [gifA] 5).loop ≠ largestExpressibleFiniteLoopCount := by
  refine ⟨rfl, ?_⟩
  decide

/-- C9 as amended: for a non-empty sorted animation set, `compose_gifs`
writes the frame sequence as a single looped animation whose per-frame
playback delay equals the reference (first, minimum-delay) animation's native
delay and whose loop count is the fixed finite constant 32767, treated as
looping forever. -/
theorem encoding_spec (g0 : GIFContainer) (rest : List GIFContainer)
    (image : Int → Int → Nat) (fc : Nat) (hs : List.Sorted delayLE (g0 :: rest)) :
    (compose_gifs image (g0 :: rest) fc).loop = 32767 ∧
    (compose_gifs image (g0 :: rest) fc).duration = g0.framedelay ∧
    ∀ g ∈ g0 :: rest, g0.framedelay ≤ g.framedelay := by
  refine ⟨rfl, rfl, ?_⟩
  intro g hg
  rcases List.mem_cons.mp hg with rfl | h
  · exact Nat.le_refl _
  · exact (List.sorted_cons.mp hs).1 g h

theorem encoding_spec_witness :
    (compose_gifs (frameStub 0) [gifA, gifB] 5).loop = 32767 ∧
    (compose_gifs (frameStub 0) [gifA, gifB] 5).duration = gifA.framedelay ∧
    ∀ g ∈ [gifA, gifB], gifA.framedelay ≤ g.framedelay :=
  encoding_spec gifA [gifB] (frameStub 0) 5 (by decide)

/-- Two-frame animation with delay 100 whose resized content is colour 1. -/
def gifS : GIFContainer := ⟨[frameStub 1, frameStub 1], 0, 0, 1, 1, 100, 1⟩

/-- Two-frame animation with delay 100 whose resized content is colour 2,
occupying the same rectangle as `gifS`. -/
def gifT : GIFContainer := ⟨[frameStub 2, frameStub 2], 0, 0, 1, 1, 100, 1⟩

/-- C7 counterexample: two animations with equal native delays (so the stable
sort preserves insertion order) and overlapping rectangles produce different
pixel content at frame 0, pixel (0,0), under the two insertion orders — the
later paste wins.  This refutes order independence of the final pixels. -/
theorem compose_order_counterexample :
    ((composeSortedGifs (frameStub 0) [gifS, gifT] 2).frames.getD 0 (frameStub 0)) 0 0
      ≠ ((composeSortedGifs (frameStub 0) [gifT, gifS] 2).frames.getD 0 (frameStub 0)) 0 0 := by
  decide

/-- C7 as amended: if the descriptors' native delays are pairwise distinct,
the sorted order is unique, so the whole compositing output — every frame's
pixel content, the loop count and the delay — is the same for any two
insertion orders of the animation set. -/
theorem compose_order_independent (l1 l2 : List GIFContainer) (hp : l1.Perm l2)
    (hd : l1.Pairwise (fun a b => a.framedelay ≠ b.framedelay))
    (image : Int → Int → Nat) (fc : Nat) :
    composeSortedGifs image l1 fc = composeSortedGifs image l2 fc := by
  have hsym : Symmetric (fun a b : GIFContainer => a.framedelay ≠ b.framedelay) :=
    fun a b h => Ne.symm h
  have hs : sortGifs l1 = sortGifs l2 := by
    have hperm : (sortGifs l1).Perm (sortGifs l2) :=
      (List.perm_insertionSort delayLE l1).trans
        (hp.trans (List.perm_insertionSort delayLE l2).symm)
    have hd1 : (sortGifs l1).Pairwise (fun a b => a.framedelay ≠ b.framedelay) :=
      ((List.perm_insertionSort delayLE l1).pairwise_iff (fun h => hsym h)).mpr hd
    have hd2 : (sortGifs l2).Pairwise (fun a b => a.framedelay ≠ b.framedelay) :=
      ((List.perm_insertionSort delayLE l2).pairwise_iff (fun h => hsym h)).mpr
        ((hp.pairwise_iff (fun h => hsym h)).mp hd)
    have hstrict1 : List.Sorted delayLT (sortGifs l1) :=
      ((List.sorted_insertionSort delayLE l1).and hd1).imp
        (fun h => lt_of_le_of_ne h.1 h.2)
    have hstrict2 : List.Sorted delayLT (sortGifs l2) :=
      ((List.sorted_insertionSort delayLE l2).and hd2).imp
        (fun h => lt_of_le_of_ne h.1 h.2)
    exact List.eq_of_perm_of_sorted hperm hstrict1 hstrict2
  unfold composeSortedGifs
  rw [hs]

/-- Two-frame animation with delay 100 used in the order-independence witness. -/
def gifU : GIFContainer := ⟨[frameStub 5, frameStub 6], 2, 2, 1, 1, 100, 1⟩

/-- One-frame animation with delay 250 used in the order-independence witness. -/
def gifV : GIFContainer := ⟨[frameStub 7], 0, 0, 2, 2, 250, 1⟩

theorem compose_order_independent_witness :
    composeSortedGifs (frameStub 0) [gifU, gifV] 3
      = composeSortedGifs (frameStub 0) [gifV, gifU] 3 :=
  compose_order_independent [gifU, gifV] [gifV, gifU]
    (List.Perm.swap gifV gifU []) (by decide) (frameStub 0) 3

/-- Initial state for the double-poll scenario: two completed animation jobs
whose artifact directories `P1` and `P2` exist on disk, an empty retention
list, and both results waiting in the queue. -/
def pollStateA : PollState := ⟨["P1", "P2"], [], [⟨"J1", "P1"⟩, ⟨"J2", "P2"⟩]⟩

/-- C5, evaluated at the failing input: the first poll packages `P1` and `P2`
into archive `R` and schedules all three for deletion without deleting
anything (the first half of the claim holds), but the second poll — which
returns the nothing-ready signal — deletes only `P1` and `R`: because the
deletion loop `del`-etes list entries while iterating over the range computed
up front, it skips `P2`, which stays on disk and in the retention list,
contradicting the claim that the second poll deletes every scheduled
artifact. -/
theorem retention_double_poll_bug :
    (return_animation_results false true "R" pollStateA).2 = PollResponse.archive "R" ∧
    (return_animation_results false true "R" pollStateA).1.retain = ["P1", "P2", "R"] ∧
    (return_animation_results false true "R" pollStateA).1.fs = ["R", "P1", "P2"] ∧
    (return_animation_results false true "R2"
        (return_animation_results false true "R" pollStateA).1).2
      = PollResponse.nothingReady ∧
    (return_animation_results false true "R2"
        (return_animation_results false true "R" pollStateA).1).1.fs = ["P2"] ∧
    (return_animation_results false true "R2"
        (return_animation_results false true "R" pollStateA).1).1.retain = ["P2"] := by
  decide

/-- C10: in both poll routes the retention sweep runs before the shared-secret
check, so a non-crawler call with an invalid credential still performs exactly
the sweep's deletions and then receives the forbidden response; the sweep is
not conditioned on the credential. -/
theorem sweep_before_auth_spec (s : PollState) (rp : String)
    (ld : String → List String) :
    return_animation_results false false rp s
      = ({ fs := (sweep s.fs s.retain).1, retain := (sweep s.fs s.retain).2,
           results := s.results }, PollResponse.forbidden) ∧
    return_form_results false false ld rp s
      = ({ fs := (sweep s.fs s.retain).1, retain := (sweep s.fs s.retain).2,
           results := s.results }, PollResponse.forbidden) := by
  exact ⟨rfl, rfl⟩
